import Mathlib

/-!
Verification development for the declarative aggregation-plan execution
engine (src/utils/pandas_executor.py) and the schema/metadata profiler
(src/utils/metadata_extractor.py), shallowly embedded over rational-valued
cells.  Definitions follow the Python source function by function; the
source line numbers are cited next to each definition.
-/

/-- A cell of a Relation: missing (None/NaN), numeric, or text.  Numeric
cells are modelled as rationals, which cover exactly the integer and
decimal values the claims exercise. -/
inductive Value where
  | null : Value
  | num : ℚ → Value
  | str : String → Value
deriving DecidableEq, Repr

def Value.isNull : Value → Bool
  | .null => true
  | _ => false

/-- Kernel-reducible rational arithmetic (the library's Rat operations are
deliberately irreducible, so equalities about concrete executions could not
be settled by decide through them). -/
def qadd (a b : ℚ) : ℚ := mkRat (a.num * b.den + b.num * a.den) (a.den * b.den)

def qdiv (a b : ℚ) : ℚ :=
  if 0 ≤ b.num then mkRat (a.num * b.den) (a.den * b.num.natAbs)
  else mkRat (-(a.num * b.den)) (a.den * b.num.natAbs)

/-- Strict and non-strict comparison by cross multiplication (denominators
are positive). -/
def qltB (a b : ℚ) : Bool := decide (a.num * b.den < b.num * a.den)

def qleB (a b : ℚ) : Bool := decide (a.num * b.den ≤ b.num * a.den)

/-- Rank used to make the value order total across kinds (pandas raises on
mixed-kind ordering, which no claim exercises; the rank keeps sorting
executable). -/
def Value.rank : Value → Nat
  | .null => 0
  | .num _ => 1
  | .str _ => 2

/-- Lexicographic codepoint order on text (Python's string order),
written out so the kernel can evaluate it. -/
def strLt : List Char → List Char → Bool
  | [], [] => false
  | [], _ :: _ => true
  | _ :: _, [] => false
  | a :: as, b :: bs =>
    if a.toNat < b.toNat then true
    else if b.toNat < a.toNat then false
    else strLt as bs

def strLtB (a b : String) : Bool := strLt a.data b.data

/-- Total comparison used for sorting rows and group keys: numbers by the
rational order, text lexicographically. -/
def vle : Value → Value → Bool
  | .num a, .num b => qleB a b
  | .str a, .str b => !strLtB b a
  | v, w => decide (v.rank ≤ w.rank)

/-- An in-memory Relation: named columns and rows of cells aligned with the
column list (the pandas DataFrame of the source). -/
structure DataFrame where
  cols : List String
  rows : List (List Value)
deriving DecidableEq, Repr

def DataFrame.colIdx (df : DataFrame) (c : String) : Nat := df.cols.indexOf c

/-- The series df[c]: one cell per row (null when the row is short). -/
def DataFrame.colValues (df : DataFrame) (c : String) : List Value :=
  df.rows.map (fun r => r.getD (df.colIdx c) Value.null)

/-- df.to_dict('records'): one (column, value) record per row. -/
def toRecords (df : DataFrame) : List (List (String × Value)) :=
  df.rows.map (fun r => df.cols.zip r)

/-- The named registry of Relations (self.dataframes), in registration
order. -/
abbrev Registry := List (String × DataFrame)

/-- Stable insertion sort by a boolean comparison (model of the sorting
pandas performs on group keys and in sort_values). -/
def insertLe {α : Type} (le : α → α → Bool) (a : α) : List α → List α
  | [] => [a]
  | b :: l => if le a b then a :: b :: l else b :: insertLe le a l

def sortByLe {α : Type} (le : α → α → Bool) : List α → List α
  | [] => []
  | a :: l => insertLe le a (sortByLe le l)

/-- A filter's declared comparison value: a scalar or a value list (the
latter is what `in` tests membership against). -/
inductive FilterVal where
  | scalar : Value → FilterVal
  | listV : List Value → FilterVal
deriving DecidableEq, Repr

/-- One filter predicate of an Operation (pandas_executor.py lines
245-248: keys column / operator / value).  Named FilterPred because Lean's
library already owns the name Filter. -/
structure FilterPred where
  column : String
  operator : String
  value : FilterVal
deriving DecidableEq, Repr

/-- Elementwise pandas equality: null compares unequal to everything
(itself included), and a number/text comparison is False, not an error. -/
def veq : Value → Value → Bool
  | .num a, .num b => a == b
  | .str a, .str b => a == b
  | _, _ => false

/-- Ordering comparison for one of the operators >, <, >=, <= on
rationals. -/
def ordQ (op : String) (a b : ℚ) : Bool :=
  if op = ">" then qltB b a
  else if op = "<" then qltB a b
  else if op = ">=" then qleB b a
  else qleB a b

/-- Ordering comparison for one of the operators >, <, >=, <= on text. -/
def ordS (op : String) (a b : String) : Bool :=
  if op = ">" then strLtB b a
  else if op = "<" then strLtB a b
  else if op = ">=" then !strLtB a b
  else !strLtB b a

/-- One cell against one filter (the elementwise reading of the masks
built in _apply_filters, lines 250-264).  Errors model the TypeError /
ValueError pandas raises: ordering a number against text, ordering against
a value list, or isin on a non-list. -/
def cmpCell (f : FilterPred) (cell : Value) : Except String Bool :=
  if f.operator = "==" then
    match f.value with
    | .scalar v => .ok (veq cell v)
    | .listV _ => .error "ValueError: lengths must match to compare"
  else if f.operator = "!=" then
    match f.value with
    | .scalar v => .ok (!veq cell v)
    | .listV _ => .error "ValueError: lengths must match to compare"
  else if f.operator = "in" then
    match f.value with
    | .listV vs => .ok (vs.any (fun v => veq cell v))
    | .scalar _ => .error "TypeError: only list-like objects are allowed in isin"
  else
    match f.value with
    | .scalar v =>
      match cell, v with
      | .num a, .num b => .ok (ordQ f.operator a b)
      | .str a, .str b => .ok (ordS f.operator a b)
      | .null, _ => .ok false
      | _, .null => .ok false
      | _, _ => .error "TypeError: unorderable types"
    | .listV _ => .error "ValueError: lengths must match to compare"

/-- The operators _apply_filters recognizes (lines 251-263); any other
operator leaves the frame untouched. -/
def recognizedOp (op : String) : Bool :=
  op == "==" || op == ">" || op == "<" || op == ">=" || op == "<=" ||
  op == "!=" || op == "in"

/-- Row-by-row application of one recognized filter mask.  An error in any
row's comparison aborts the whole filter, as the vectorized pandas
comparison does. -/
def filterRows (f : FilterPred) (idx : Nat) : List (List Value) → Except String (List (List Value))
  | [] => .ok []
  | r :: rest => do
    let b ← cmpCell f (r.getD idx Value.null)
    let tail ← filterRows f idx rest
    .ok (if b then r :: tail else tail)

/-- One step of _apply_filters (lines 245-264): a filter whose column is
absent, or whose operator is not recognized, is a no-op. -/
def apply_filter (df : DataFrame) (f : FilterPred) : Except String DataFrame :=
  if df.cols.contains f.column && recognizedOp f.operator then do
    let rows ← filterRows f (df.colIdx f.column) df.rows
    .ok ⟨df.cols, rows⟩
  else .ok df

/-- PandasExecutor._apply_filters (lines 241-266): each filter applied in
listed order to the running frame. -/
def apply_filters (df : DataFrame) : List FilterPred → Except String DataFrame
  | [] => .ok df
  | f :: fs => do
    let df1 ← apply_filter df f
    apply_filters df1 fs

/-- Non-null cells of a series (what the pandas reductions skip over). -/
def nonNull (vs : List Value) : List Value := vs.filter (fun v => !v.isNull)

/-- All-numeric view of a cell list, when every cell is numeric. -/
def asNums : List Value → Option (List ℚ)
  | [] => some []
  | .num q :: rest => (asNums rest).map (fun l => q :: l)
  | _ => none

/-- All-text view of a cell list, when every cell is text. -/
def asStrs : List Value → Option (List String)
  | [] => some []
  | .str s :: rest => (asStrs rest).map (fun l => s :: l)
  | _ => none

/-- series.sum(): numeric sum (0 when empty), text concatenation on an
all-text series, TypeError on a mixed one. -/
def vsum (vs : List Value) : Except String Value :=
  match asNums (nonNull vs) with
  | some qs => .ok (.num (qs.foldr qadd 0))
  | none =>
    match asStrs (nonNull vs) with
    | some ss => .ok (.str (String.join ss))
    | none => .error "TypeError: unsupported operand types for +"

/-- series.count(): the number of non-null cells. -/
def vcount (vs : List Value) : Value := .num ((nonNull vs).length : ℚ)

/-- series.mean(): null (NaN) on an empty numeric series. -/
def vmean (vs : List Value) : Except String Value :=
  match asNums (nonNull vs) with
  | some [] => .ok .null
  | some qs => .ok (.num (qdiv (qs.foldr qadd 0) (qs.length : ℚ)))
  | none => .error "TypeError: could not compute mean"

def foldBetter {α : Type} (better : α → α → Bool) : α → List α → α
  | a, [] => a
  | a, b :: l => foldBetter better (if better b a then b else a) l

/-- series.min() / series.max(): null on an empty series, extremum within
one kind, TypeError on a mixed series. -/
def vextreme (isMin : Bool) (vs : List Value) : Except String Value :=
  match nonNull vs with
  | [] => .ok .null
  | l =>
    match asNums l with
    | some (q :: qs) =>
      .ok (.num (foldBetter (fun a b => if isMin then qltB a b else qltB b a) q qs))
    | some [] => .ok .null
    | none =>
      match asStrs l with
      | some (s :: ss) =>
        .ok (.str (foldBetter (fun a b => if isMin then strLtB a b else strLtB b a) s ss))
      | some [] => .ok .null
      | none => .error "TypeError: unorderable types"

/-- series.median(): middle of the sorted values, average of the two
middles on an even count. -/
def vmedian (vs : List Value) : Except String Value :=
  match asNums (nonNull vs) with
  | some [] => .ok .null
  | some qs =>
    let s := sortByLe qleB qs
    let n := s.length
    if n % 2 = 1 then .ok (.num (s.getD (n / 2) 0))
    else .ok (.num (qdiv (qadd (s.getD (n / 2 - 1) 0) (s.getD (n / 2) 0)) 2))
  | none => .error "TypeError: could not compute median"

/-- The named reductions pandas applies per group in grouped.agg.  The
`std` reduction needs square roots, which the rational value model cannot
represent; it (like any unknown name) is modelled as a failing
aggregation, and no claim depends on its numeric value. -/
def aggFn (fn : String) (vs : List Value) : Except String Value :=
  if fn = "sum" then vsum vs
  else if fn = "mean" then vmean vs
  else if fn = "count" then .ok (vcount vs)
  else if fn = "min" then vextreme true vs
  else if fn = "max" then vextreme false vs
  else if fn = "median" then vmedian vs
  else .error ("unsupported aggregation function " ++ fn)

/-- Aggregation request for one column: a bare function name or a list of
function names (the isinstance branching of lines 281-284). -/
inductive AggSpec where
  | single : String → AggSpec
  | listF : List String → AggSpec
deriving DecidableEq, Repr

def AggSpec.toFns : AggSpec → List String
  | .single f => [f]
  | .listF fs => fs

/-- Lexicographic order on group keys, using the total cell order. -/
def keyLe : List Value → List Value → Bool
  | [], _ => true
  | _ :: _, [] => false
  | a :: as, b :: bs => if a == b then keyLe as bs else vle a b

/-- Indices of the valid grouping columns. -/
def keyIdxs (df : DataFrame) (valid : List String) : List Nat :=
  valid.map df.colIdx

/-- The group key of one row. -/
def keyOf (idxs : List Nat) (r : List Value) : List Value :=
  idxs.map (fun i => r.getD i Value.null)

/-- Rows that take part in grouping: pandas groupby drops rows whose key
holds a null. -/
def keyedRows (df : DataFrame) (valid : List String) : List (List Value) :=
  df.rows.filter (fun r => !(keyOf (keyIdxs df valid) r).any Value.isNull)

/-- The distinct group keys, in ascending key order (groupby sorts group
keys by default). -/
def groupKeys (df : DataFrame) (valid : List String) : List (List Value) :=
  sortByLe keyLe ((keyedRows df valid).map (keyOf (keyIdxs df valid))).dedup

/-- The rows of one group. -/
def groupOf (df : DataFrame) (valid : List String) (k : List Value) : List (List Value) :=
  (keyedRows df valid).filter (fun r => keyOf (keyIdxs df valid) r == k)

/-- PandasExecutor._group_and_aggregate (lines 268-293).  Group columns
absent from the frame are dropped; with no valid group column the frame is
returned unchanged.  Aggregate columns absent from the frame are dropped;
with an empty aggregation dict the group sizes are emitted under a `count`
column.  Requested functions are always wrapped in a list, so the agg
result always has two column levels and the `{column}_{function}`
flattening of line 290 always applies. -/
def group_and_aggregate (df : DataFrame) (group_by : List String)
    (aggregations : List (String × AggSpec)) : Except String DataFrame :=
  let valid := group_by.filter (fun c => df.cols.contains c)
  if valid.isEmpty then .ok df
  else
    let agg_dict : List (String × List String) :=
      aggregations.filterMap (fun p =>
        if df.cols.contains p.1 then some (p.1, p.2.toFns) else none)
    if agg_dict.isEmpty then
      .ok ⟨valid ++ ["count"],
        (groupKeys df valid).map (fun k =>
          k ++ [.num ((groupOf df valid k).length : ℚ)])⟩
    else do
      let rows ← (groupKeys df valid).mapM (fun k => do
        let cells ← agg_dict.mapM (fun p => p.2.mapM (fun fn =>
          aggFn fn ((groupOf df valid k).map (fun r => r.getD (df.colIdx p.1) Value.null))))
        pure (k ++ cells.flatten))
      .ok ⟨valid ++ (agg_dict.map (fun p => p.2.map (fun fn => p.1 ++ "_" ++ fn))).flatten,
        rows⟩

/-- The scalar the ungrouped path computes for one requested function:
_simple_aggregate (lines 299-310) recognizes only the five bare names
sum, mean, count, max, min; anything else (including a list of function
names, which is compared against each name as a whole and matches none)
produces no entry. -/
def simpleAggValue (fn : String) (vs : List Value) : Option (Except String Value) :=
  if fn = "sum" then some (vsum vs)
  else if fn = "mean" then some (vmean vs)
  else if fn = "count" then some (.ok (vcount vs))
  else if fn = "max" then some (vextreme false vs)
  else if fn = "min" then some (vextreme true vs)
  else none

/-- The `{column}_{function}` scalar entries of _simple_aggregate, in
dict-iteration order; a failing reduction aborts the operation. -/
def simpleAggEntries (df : DataFrame) : List (String × AggSpec) → Except String (List (String × Value))
  | [] => .ok []
  | (col, spec) :: rest =>
    if df.cols.contains col then
      match spec with
      | .single fn =>
        match simpleAggValue fn (df.colValues col) with
        | some ev => do
          let v ← ev
          let tail ← simpleAggEntries df rest
          pure ((col ++ "_" ++ fn, v) :: tail)
        | none => simpleAggEntries df rest
      | .listF _ => simpleAggEntries df rest
    else simpleAggEntries df rest

/-- PandasExecutor._simple_aggregate (lines 295-312): one row of scalars,
or a frame with no rows at all when no entry was produced
(pd.DataFrame of an empty dict has zero rows and zero columns). -/
def simple_aggregate (df : DataFrame) (aggregations : List (String × AggSpec)) : Except String DataFrame := do
  let es ← simpleAggEntries df aggregations
  pure ⟨es.map Prod.fst, if es.isEmpty then [] else [es.map Prod.snd]⟩

/-- One sort specification (line 316-317; `ascending` defaults to true). -/
structure SortConfig where
  column : Option String
  ascending : Bool := true
deriving DecidableEq, Repr

/-- PandasExecutor._apply_sorting (lines 314-322): a stable sort by the
named column; a missing or unknown column is a no-op. -/
def apply_sorting (df : DataFrame) (sc : SortConfig) : DataFrame :=
  match sc.column with
  | some c =>
    if df.cols.contains c then
      ⟨df.cols, sortByLe (fun r s =>
        if sc.ascending then vle (r.getD (df.colIdx c) Value.null) (s.getD (df.colIdx c) Value.null)
        else vle (s.getD (df.colIdx c) Value.null) (r.getD (df.colIdx c) Value.null)) df.rows⟩
    else df
  | none => df

/-- df.head(n) (line 179): the first n rows for nonnegative n, all but the
last |n| rows for negative n. -/
def dfHead (df : DataFrame) (n : Int) : DataFrame :=
  ⟨df.cols, if 0 ≤ n then df.rows.take n.toNat
    else df.rows.take (df.rows.length - (-n).toNat)⟩

instance {ε α : Type} [DecidableEq ε] [DecidableEq α] : DecidableEq (Except ε α) :=
  fun a b =>
    match a, b with
    | .ok x, .ok y => if h : x = y then .isTrue (by rw [h]) else .isFalse (by intro hh; cases hh; exact h rfl)
    | .error x, .error y => if h : x = y then .isTrue (by rw [h]) else .isFalse (by intro hh; cases hh; exact h rfl)
    | .ok _, .error _ => .isFalse (by intro hh; cases hh)
    | .error _, .ok _ => .isFalse (by intro hh; cases hh)


/-- The sort field of an Operation: a single specification or a list of
them (lines 164-175: a nonempty list is collapsed to its first entry, an
empty list is ignored). -/
inductive SortVal where
  | one : SortConfig → SortVal
  | many : List SortConfig → SortVal
deriving DecidableEq, Repr

/-- One Operation of a Plan (the dictionary read by
_execute_single_aggregation, lines 104-200).  Both spelling styles of the
grouping fields are present, as in the source. -/
structure Operation where
  table : Option String := none
  filters : Option (List FilterPred) := none
  group_by : Option (List String) := none
  groupby : Option (List String) := none
  aggregate : Option (List (String × AggSpec)) := none
  agg_functions : Option (List (String × AggSpec)) := none
  sort : Option SortVal := none
  limit : Option Int := none
  type : Option String := none
deriving DecidableEq, Repr

/-- Python `x or y` on optional containers: None and the empty container
are both falsy (lines 149-150). -/
def pyOr {α : Type} : Option (List α) → Option (List α) → Option (List α)
  | some (a :: l), _ => some (a :: l)
  | _, b => b

/-- Python truthiness of an optional container (line 152 and 156). -/
def truthyList {α : Type} : Option (List α) → Bool
  | some (_ :: _) => true
  | _ => false

/-- The exact-match test of line 125: `requested_table and requested_table
in self.dataframes` — by Python truthiness an empty-string table name never
matches. -/
def exactMatch (dfs : Registry) : Option String → Bool
  | some t => t != "" && (dfs.lookup t).isSome
  | none => false

/-- Table resolution (lines 118-139): exact match, else the first
registered table, and the final guard `not table_name or table_name not in
self.dataframes` of line 136, under which an empty-string fallback name
also fails. -/
def resolveTable (dfs : Registry) (requested : Option String) : Except String String :=
  let table_name : Option String :=
    if exactMatch dfs requested then requested else dfs.head?.map Prod.fst
  match table_name with
  | none => .error "No valid table found"
  | some t =>
    if t != "" && (dfs.lookup t).isSome then .ok t
    else .error "No valid table found"

/-- The body of _execute_single_aggregation for a dictionary operation
(lines 118-194), as the pipeline resolve → filter → group/aggregate →
sort → limit; any error is the exception the source's handler catches. -/
def single_aggregation_body (dfs : Registry) (agg : Operation) : Except String DataFrame := do
  let tn ← resolveTable dfs agg.table
  let df0 := (dfs.lookup tn).getD ⟨[], []⟩
  let df1 ← match agg.filters with
    | some fl => apply_filters df0 fl
    | none => pure df0
  let gb := pyOr agg.group_by agg.groupby
  let ag := pyOr agg.aggregate agg.agg_functions
  let df2 ← if truthyList gb && truthyList ag then
      group_and_aggregate df1 (gb.getD []) (ag.getD [])
    else if truthyList ag then
      simple_aggregate df1 (ag.getD [])
    else pure df1
  let df3 := match agg.sort with
    | some (.one sc) => apply_sorting df2 sc
    | some (.many (sc :: _)) => apply_sorting df2 sc
    | some (.many []) => df2
    | none => df2
  let df4 := match agg.limit with
    | some n => dfHead df3 n
    | none => df3
  pure df4

/-- The per-operation summary block of lines 181-188. -/
structure Summary where
  rows : Nat
  columns : List String
  operation : String
deriving DecidableEq, Repr

/-- An Execution Result: row-records plus a summary, or an error entry. -/
inductive OpResult where
  | data : List (List (String × Value)) → Summary → OpResult
  | err : String → OpResult
deriving DecidableEq, Repr

/-- An entry of a plan's operation list: a dictionary-shaped Operation, or
a value of another runtime type (carried as its display text). -/
inductive OpVal where
  | op : Operation → OpVal
  | notDict : String → OpVal
deriving DecidableEq, Repr

/-- PandasExecutor._execute_single_aggregation (lines 104-200): the
isinstance guard of lines 113-116 turns a non-dictionary operation into an
error entry, and the blanket handler of lines 196-200 turns any exception
from the body into an error entry; the function itself never raises. -/
def execute_single_aggregation (dfs : Registry) : OpVal → OpResult
  | .notDict r => .err ("Expected aggregation to be a dictionary, got " ++ r)
  | .op agg =>
    match single_aggregation_body dfs agg with
    | .ok df => .data (toRecords df) ⟨df.rows.length, df.cols, agg.type.getD "aggregation"⟩
    | .error e => .err e

/-- The sub-operation list of one table of a `tables` plan: a proper list,
or a value that is not a list of dictionaries at all. -/
inductive OpsList where
  | ops : List OpVal → OpsList
  | bad : String → OpsList
deriving DecidableEq, Repr

/-- An aggregation plan, in the precedence order of _parse_and_execute
(lines 78-97): the key checked first wins.  The free-form fourth branch
(_execute_flexible_plan, keyed main_aggregation) is outside every claim
and is not embedded. -/
inductive Plan where
  | aggregations : List OpVal → Plan
  | operations : List OpVal → Plan
  | tables : List (String × OpsList) → Plan
deriving DecidableEq, Repr

/-- The loop body of _execute_table_operations (lines 212-214).  The
source builds {**op, 'df': current_df} before calling the guarded
_execute_single_aggregation: for a dictionary op the extra 'df' key is
never read by the callee, and for a non-dictionary op the splat itself
raises a TypeError outside any per-operation handler. -/
def tableOpsGo (dfs : Registry) : Nat → List OpVal → Except String (List (String × OpResult))
  | _, [] => .ok []
  | _, .notDict r :: _ => .error ("TypeError: " ++ r ++ " is not a mapping")
  | i, .op o :: rest => do
    let res := execute_single_aggregation dfs (.op o)
    let tail ← tableOpsGo dfs (i + 1) rest
    pure (("step_" ++ toString (i + 1), res) :: tail)

/-- PandasExecutor._execute_table_operations (lines 207-216).  The df
argument is received and copied by the source but never consumed: every
sub-operation resolves its own table from the registry. -/
def execute_table_operations (dfs : Registry) (df : DataFrame) : OpsList → Except String (List (String × OpResult))
  | .ops l => tableOpsGo dfs 0 l
  | .bad r => .error ("TypeError: " ++ r ++ " object is not iterable")

/-- A value of the batch result mapping: a single Execution Result, or the
step-keyed mapping of one table of a `tables` plan. -/
inductive ResultVal where
  | res : OpResult → ResultVal
  | steps : List (String × OpResult) → ResultVal
deriving DecidableEq, Repr

abbrev Results := List (String × ResultVal)

/-- The enumeration loops of lines 80-88, keying each operation's result
`{prefix}{i+1}`. -/
def keyedGo (dfs : Registry) (pre : String) : Nat → List OpVal → Results
  | _, [] => []
  | i, v :: rest =>
    (pre ++ toString (i + 1), .res (execute_single_aggregation dfs v)) :: keyedGo dfs pre (i + 1) rest

/-- The `tables` loop of lines 90-96: tables absent from the registry are
skipped silently; an exception from a table's operation list aborts the
whole parse (the partial mapping is a local variable and is lost). -/
def tablesGo (dfs : Registry) : List (String × OpsList) → Except String Results
  | [] => .ok []
  | (name, ol) :: rest =>
    match dfs.lookup name with
    | some df => do
      let steps ← execute_table_operations dfs df ol
      let tail ← tablesGo dfs rest
      pure ((name, .steps steps) :: tail)
    | none => tablesGo dfs rest

/-- PandasExecutor._parse_and_execute (lines 73-102) over the embedded
plan shapes. -/
def parse_and_execute (dfs : Registry) : Plan → Except String Results
  | .aggregations l => .ok (keyedGo dfs "aggregation_" 0 l)
  | .operations l => .ok (keyedGo dfs "operation_" 0 l)
  | .tables es => tablesGo dfs es

/-- The execution_metadata block of lines 58-62. -/
structure ExecMeta where
  tables_processed : Nat
  aggregations_executed : Nat
  total_rows_processed : Nat
deriving DecidableEq, Repr

/-- The batch outcome of execute_aggregation_plan: the success dictionary
of lines 55-63, or the failure dictionary of lines 67-71 carrying the
error text and partial_results. -/
inductive ExecOutcome where
  | ok : Results → ExecMeta → ExecOutcome
  | fail : String → Results → ExecOutcome
deriving DecidableEq, Repr

def totalRows (dfs : Registry) : Nat := (dfs.map (fun p => p.2.rows.length)).sum

/-- PandasExecutor.execute_aggregation_plan (lines 21-71).  self.results
is reset to the empty dict at line 42 and never written again before the
exception handler reads it at line 70, so the failure branch's
partial_results is always empty. -/
def execute_aggregation_plan (plan : Plan) (dfs : Registry) : ExecOutcome :=
  match parse_and_execute dfs plan with
  | .ok res => .ok res ⟨dfs.length, res.length, totalRows dfs⟩
  | .error e => .fail e []

/-- Column Metadata (metadata_extractor.py lines 11-44). -/
structure ColumnMeta where
  column_name : String
  data_type : String
  nullable : Bool
  unique_count : Nat
  sample_values : List Value
  min_value : Option Value
  max_value : Option Value
  distinct_value_ratio : ℚ
deriving DecidableEq, Repr

/-- series.dropna().unique(): first occurrence of each distinct non-null
value, in order (structural recursion over the list with the already-seen
values accumulated, so the kernel can evaluate it). -/
def firstDedupAux : List Value → List Value → List Value
  | _, [] => []
  | seen, a :: l =>
    if seen.contains a then firstDedupAux seen l
    else a :: firstDedupAux (a :: seen) l

def firstDedup (l : List Value) : List Value := firstDedupAux [] l

/-- The dtype classifier of lines 17-24, restricted to the embedded value
kinds: an all-numeric series is int when every value is integral, float
otherwise, and anything else is string (datetime values are outside the
cell model). -/
def inferType (vs : List Value) : String :=
  if (nonNull vs).all (fun v => match v with | .num _ => true | _ => false) then
    if (nonNull vs).all (fun v => match v with | .num q => q.den == 1 | _ => true)
    then "int" else "float"
  else "string"

/-- get_column_metadata for one series (lines 13-43): nullable when any
cell is null, unique_count over distinct non-null cells, min/max only for
numeric series with at least one non-null cell, and distinct_value_ratio
unique_count / row_count (0 for an empty series). -/
def columnMeta (name : String) (vs : List Value) : ColumnMeta :=
  let nn := nonNull vs
  let uc := nn.dedup.length
  let numeric := inferType vs == "int" || inferType vs == "float"
  { column_name := name
    data_type := inferType vs
    nullable := vs.any Value.isNull
    unique_count := uc
    sample_values := (firstDedup nn).take 5
    min_value := if numeric && !nn.isEmpty then (vextreme true vs).toOption else none
    max_value := if numeric && !nn.isEmpty then (vextreme false vs).toOption else none
    distinct_value_ratio := if 0 < vs.length then qdiv (uc : ℚ) (vs.length : ℚ) else 0 }

/-- metadata_extractor.get_column_metadata (lines 11-44): one metadata
record per column, in column order. -/
def get_column_metadata (df : DataFrame) : List ColumnMeta :=
  df.cols.map (fun c => columnMeta c (df.colValues c))

/-- series.is_unique: nunique counting nulls as one value equals the
length. -/
def is_uniqueCol (vs : List Value) : Bool := vs.dedup.length == vs.length

/-- metadata_extractor.find_primary_key_candidates (lines 60-65): columns
that are fully unique and fully non-null. -/
def find_primary_key_candidates (df : DataFrame) : List String :=
  df.cols.filter (fun c =>
    is_uniqueCol (df.colValues c) && !(df.colValues c).any Value.isNull)

/-- State-threaded variant of the keyed enumeration loop: the registry
(self.dataframes) is passed into every step as the executor state and
handed back, so that the frame condition on the registry is a theorem
about the execution rather than a convention of the embedding. -/
def keyedGoS (pre : String) : Registry → Nat → List OpVal → Results × Registry
  | st, _, [] => ([], st)
  | st, i, v :: rest =>
    let r := execute_single_aggregation st v
    let (tail, st1) := keyedGoS pre st (i + 1) rest
    ((pre ++ toString (i + 1), .res r) :: tail, st1)

/-- State-threaded variant of the _execute_table_operations loop. -/
def tableOpsGoS : Registry → Nat → List OpVal → (Except String (List (String × OpResult))) × Registry
  | st, _, [] => (.ok [], st)
  | st, _, .notDict r :: _ => (.error ("TypeError: " ++ r ++ " is not a mapping"), st)
  | st, i, .op o :: rest =>
    let res := execute_single_aggregation st (.op o)
    match tableOpsGoS st (i + 1) rest with
    | (.ok tail, st1) => (.ok (("step_" ++ toString (i + 1), res) :: tail), st1)
    | (.error e, st1) => (.error e, st1)

def execute_table_operationsS (st : Registry) (df : DataFrame) : OpsList → (Except String (List (String × OpResult))) × Registry
  | .ops l => tableOpsGoS st 0 l
  | .bad r => (.error ("TypeError: " ++ r ++ " object is not iterable"), st)

/-- State-threaded variant of the `tables` loop. -/
def tablesGoS : Registry → List (String × OpsList) → (Except String Results) × Registry
  | st, [] => (.ok [], st)
  | st, (name, ol) :: rest =>
    match st.lookup name with
    | some df =>
      match execute_table_operationsS st df ol with
      | (.error e, st1) => (.error e, st1)
      | (.ok steps, st1) =>
        match tablesGoS st1 rest with
        | (.error e, st2) => (.error e, st2)
        | (.ok tail, st2) => (.ok ((name, .steps steps) :: tail), st2)
    | none => tablesGoS st rest

def parse_and_executeS (st : Registry) : Plan → (Except String Results) × Registry
  | .aggregations l =>
    match keyedGoS "aggregation_" st 0 l with
    | (r, st1) => (.ok r, st1)
  | .operations l =>
    match keyedGoS "operation_" st 0 l with
    | (r, st1) => (.ok r, st1)
  | .tables es => tablesGoS st es

/-- State-threaded variant of execute_aggregation_plan. -/
def execute_aggregation_planS (plan : Plan) (dfs : Registry) : ExecOutcome × Registry :=
  match parse_and_executeS dfs plan with
  | (.ok res, st) => (.ok res ⟨st.length, res.length, totalRows st⟩, st)
  | (.error e, st) => (.fail e [], st)

/-- The boolean a successful cell comparison yields (irrelevant default on
the error case, which cannot occur in a successfully filtered frame). -/
def cellPass (f : FilterPred) (idx : Nat) (r : List Value) : Bool :=
  match cmpCell f (r.getD idx Value.null) with
  | .ok b => b
  | .error _ => false

/-- Specification-side reading of one filter at one row, following the
spec's words: a row satisfies an applicable predicate by the operator's
comparison, and a predicate with an unknown column (or an operator outside
the listed set) does not restrict the row. -/
def rowPasses (cols : List String) (f : FilterPred) (r : List Value) : Bool :=
  if cols.contains f.column && recognizedOp f.operator then
    cellPass f (cols.indexOf f.column) r
  else true

/-- Specification-side per-operation results of a `tables` plan: each
listed table present in the registry contributes the step-keyed results of
its own operations, independently executed. -/
def stepResults (dfs : Registry) : Nat → List OpVal → List (String × OpResult)
  | _, [] => []
  | i, v :: rest =>
    ("step_" ++ toString (i + 1), execute_single_aggregation dfs v) :: stepResults dfs (i + 1) rest

def perTablesResults (dfs : Registry) : List (String × OpsList) → Results
  | [] => []
  | (name, .ops l) :: rest =>
    if (dfs.lookup name).isSome then
      (name, .steps (stepResults dfs 0 l)) :: perTablesResults dfs rest
    else perTablesResults dfs rest
  | (_, .bad _) :: rest => perTablesResults dfs rest

/-- Specification-side batch results: every operation of the plan executed
independently through the guarded per-operation function, under its own
key. -/
def perOpResults (dfs : Registry) : Plan → Results
  | .aggregations l => keyedGo dfs "aggregation_" 0 l
  | .operations l => keyedGo dfs "operation_" 0 l
  | .tables es => perTablesResults dfs es

/-- Mapping-shaped sub-operation lists (what the splat of line 213 needs
in order not to raise). -/
def opsAllDict : OpsList → Prop
  | .ops l => ∀ v ∈ l, ∃ o, v = OpVal.op o
  | .bad _ => False

/-- The sales table of the spec's end-to-end scenario (section 8). -/
def salesDF : DataFrame :=
  ⟨["loc", "amt"],
   [[.str "NYC", .num 100], [.str "NYC", .num 200], [.str "LA", .num 50]]⟩

def salesReg : Registry := [("sales", salesDF)]

/-- The Operation of the spec's end-to-end scenario. -/
def c2op : Operation :=
  { table := some "sales",
    group_by := some ["loc"],
    aggregate := some [("amt", .listF ["sum"])],
    sort := some (.one ⟨some "amt_sum", false⟩),
    limit := some 1 }

/-- Second sample table, with two numeric columns. -/
def sales2DF : DataFrame :=
  ⟨["amt", "qty"], [[.num 100, .num 1], [.num 200, .num 2], [.num 50, .num 3]]⟩

def sales2Reg : Registry := [("sales2", sales2DF)]

/-- Ungrouped aggregation requesting sum inside a list and median as a
bare name, both on columns present in the table. -/
def c3op : Operation :=
  { aggregate := some [("amt", .listF ["sum"]), ("qty", .single "median")] }

/-- Two registered tables and an operation that names no table. -/
def dfA : DataFrame := ⟨["x"], [[.num 1], [.num 2]]⟩

def dfB : DataFrame := ⟨["x"], [[.num 10], [.num 20]]⟩

def regAB : Registry := [("a", dfA), ("b", dfB)]

def opSumX : Operation := { aggregate := some [("x", .single "sum")] }

/-- C2: for the registry holding only the sales table, the single
Operation group loc / sum amt / sort amt_sum descending / limit 1 yields
exactly the one row-record loc NYC, amt_sum 300. -/
theorem end_to_end_sales_scenario :
    execute_aggregation_plan (.aggregations [.op c2op]) salesReg =
      .ok [("aggregation_1", .res (.data
          [[("loc", .str "NYC"), ("amt_sum", .num 300)]]
          ⟨1, ["loc", "amt_sum"], "aggregation"⟩))]
        ⟨1, 1, 3⟩ := by decide

/-- C3 counterexample: the claim promises scalars amt_sum and qty_median
for this operation (sum given inside a list, median given alone, both
columns present), but _simple_aggregate recognizes neither form, and the
result carries no columns and no rows at all. -/
theorem c3_counterexample :
    execute_single_aggregation sales2Reg (.op c3op) =
      .data [] ⟨0, [], "aggregation"⟩ := by decide

/-- C4 counterexample: the empty string is a registry key and the
Operation names it exactly, yet the claim's promised exact match does not
happen — Python truthiness routes the empty-string request to the
fallback, and the line 136 guard then rejects the empty-string fallback
name, so the Operation fails although the registry is not empty. -/
theorem c4_counterexample :
    resolveTable [("", salesDF)] (some "") = .error "No valid table found" ∧
    execute_single_aggregation [("", salesDF)] (.op { table := some "" }) =
      .err "No valid table found" := by decide

/-- C5 failing input: plan tables maps table b to one sub-operation that
names no table.  The claim says the sub-operation runs against table b's
Relation (x values 10 and 20, sum 30); the code keys the result step_1
under b but computes it from the first registered table a (x values 1 and
2, sum 3), because the 'df' entry passed by _execute_table_operations is
never read. -/
theorem c5_subops_resolve_first_table :
    execute_aggregation_plan (.tables [("b", .ops [.op opSumX])]) regAB =
      .ok [("b", .steps [("step_1",
          .data [[("x_sum", .num 3)]] ⟨1, ["x_sum"], "aggregation"⟩)])]
        ⟨2, 1, 4⟩ ∧
    vsum (dfB.colValues "x") = .ok (.num 30) := by decide

/-- C6 failing input: table a's operation list succeeds (second conjunct),
then table b's malformed operation list raises, aborting the batch.  The
claim says the batch failure carries the per-operation results already
produced; the code returns partial_results empty, because the produced
results live in a local variable and self.results is never updated. -/
theorem c6_partial_results_always_empty :
    execute_aggregation_plan
        (.tables [("a", .ops [.op opSumX]), ("b", .bad "str")]) regAB =
      .fail "TypeError: str object is not iterable" [] ∧
    execute_aggregation_plan (.tables [("a", .ops [.op opSumX])]) regAB =
      .ok [("a", .steps [("step_1",
          .data [[("x_sum", .num 3)]] ⟨1, ["x_sum"], "aggregation"⟩)])]
        ⟨2, 1, 4⟩ := by decide

/-- C1 counterexample: in a tables-shape plan a non-dictionary
sub-operation raises at the dict splat of line 213, outside the
per-operation handler, so the batch returns success false instead of
recording an error entry under that operation's key. -/
theorem c1_counterexample :
    execute_aggregation_plan (.tables [("a", .ops [.notDict "str"])]) regAB =
      .fail "TypeError: str is not a mapping" [] := by decide

lemma keyedGoS_spec (pre : String) (st : Registry) (i : Nat) (l : List OpVal) :
    keyedGoS pre st i l = (keyedGo st pre i l, st) := by
  induction l generalizing i with
  | nil => rfl
  | cons v rest ih => simp [keyedGoS, keyedGo, ih]

lemma tableOpsGoS_spec (st : Registry) (i : Nat) (l : List OpVal) :
    tableOpsGoS st i l = (tableOpsGo st i l, st) := by
  induction l generalizing i with
  | nil => rfl
  | cons v rest ih =>
    cases v with
    | notDict r => rfl
    | op o =>
      simp only [tableOpsGoS, tableOpsGo, ih]
      cases h : tableOpsGo st (i + 1) rest with
      | ok tail => simp [h, Except.bind]
      | error e => simp [h, Except.bind]

lemma execute_table_operationsS_spec (st : Registry) (df : DataFrame) (ol : OpsList) :
    execute_table_operationsS st df ol = (execute_table_operations st df ol, st) := by
  cases ol with
  | ops l => simp [execute_table_operationsS, execute_table_operations, tableOpsGoS_spec]
  | bad r => rfl

lemma tablesGoS_spec (st : Registry) (es : List (String × OpsList)) :
    tablesGoS st es = (tablesGo st es, st) := by
  induction es with
  | nil => rfl
  | cons p rest ih =>
    obtain ⟨name, ol⟩ := p
    simp only [tablesGoS, tablesGo]
    cases hlk : st.lookup name with
    | none => exact ih
    | some df =>
      dsimp only
      rw [execute_table_operationsS_spec]
      cases h : execute_table_operations st df ol with
      | error e => rfl
      | ok steps =>
        dsimp only
        rw [ih]
        cases h2 : tablesGo st rest with
        | error e => rfl
        | ok tail => rfl

/-- C9: executing any plan leaves the registry exactly as it was handed
in — the state-threaded execution returns the registry unchanged and
computes the same outcome as the plain execution, mirroring that the
source never updates self.dataframes and only uses transformations that
produce fresh frames. -/
theorem registry_read_only (plan : Plan) (dfs : Registry) :
    (execute_aggregation_planS plan dfs).2 = dfs ∧
    (execute_aggregation_planS plan dfs).1 = execute_aggregation_plan plan dfs := by
  cases plan with
  | aggregations l =>
    simp [execute_aggregation_planS, parse_and_executeS, keyedGoS_spec,
      execute_aggregation_plan, parse_and_execute]
  | operations l =>
    simp [execute_aggregation_planS, parse_and_executeS, keyedGoS_spec,
      execute_aggregation_plan, parse_and_execute]
  | tables es =>
    simp only [execute_aggregation_planS, parse_and_executeS, tablesGoS_spec,
      execute_aggregation_plan, parse_and_execute]
    cases h : tablesGo dfs es with
    | ok res => simp
    | error e => simp

lemma tableOpsGo_allDict (dfs : Registry) (i : Nat) (l : List OpVal)
    (h : ∀ v ∈ l, ∃ o, v = OpVal.op o) :
    tableOpsGo dfs i l = .ok (stepResults dfs i l) := by
  induction l generalizing i with
  | nil => rfl
  | cons v rest ih =>
    obtain ⟨o, rfl⟩ := h v (List.mem_cons_self _ _)
    have hrest := ih (i + 1) (fun w hw => h w (List.mem_cons_of_mem _ hw))
    simp only [tableOpsGo, stepResults, hrest]
    rfl

lemma tablesGo_allDict (dfs : Registry) (es : List (String × OpsList))
    (h : ∀ p ∈ es, opsAllDict p.2) :
    tablesGo dfs es = .ok (perTablesResults dfs es) := by
  induction es with
  | nil => rfl
  | cons p rest ih =>
    obtain ⟨name, ol⟩ := p
    have hol := h (name, ol) (List.mem_cons_self _ _)
    have hrest := ih (fun q hq => h q (List.mem_cons_of_mem _ hq))
    cases ol with
    | bad r => exact absurd hol (by simp [opsAllDict])
    | ops l =>
      simp only [tablesGo, perTablesResults]
      cases hlk : dfs.lookup name with
      | none => simp [hrest]
      | some df =>
        simp only [execute_table_operations, tableOpsGo_allDict dfs 0 l hol, hrest,
          Option.isSome_some, if_pos]
        rfl

/-- C1 (amended): for every registry and every plan dispatched to
per-operation execution, provided every tables-shape sub-operation list is
a sequence of mapping-shaped operations, the batch call returns success
true with exactly one independently computed entry per operation under its
own key (each entry is the guarded per-operation result, so any failing
operation contributes an error entry rather than aborting its siblings,
even when every entry is an error).  Without the proviso a non-mapping
sub-operation of a tables-shape plan fails the whole batch, as the
counterexample shows. -/
theorem per_operation_error_isolation (plan : Plan) (dfs : Registry)
    (h : ∀ es, plan = Plan.tables es → ∀ p ∈ es, opsAllDict p.2) :
    execute_aggregation_plan plan dfs =
      .ok (perOpResults dfs plan)
        ⟨dfs.length, (perOpResults dfs plan).length, totalRows dfs⟩ := by
  cases plan with
  | aggregations l => rfl
  | operations l => rfl
  | tables es =>
    simp only [execute_aggregation_plan, parse_and_execute,
      tablesGo_allDict dfs es (h es rfl), perOpResults]

/-- C1 witness: the amended theorem applied to a concrete tables-shape
plan whose sub-operations are all mapping-shaped. -/
theorem per_operation_error_isolation_witness :
    execute_aggregation_plan (.tables [("a", .ops [.op opSumX])]) regAB =
      .ok (perOpResults regAB (.tables [("a", .ops [.op opSumX])]))
        ⟨regAB.length, (perOpResults regAB (.tables [("a", .ops [.op opSumX])])).length,
          totalRows regAB⟩ := by
  refine per_operation_error_isolation _ _ ?_
  intro es hes
  cases hes
  intro p hp
  simp only [List.mem_singleton] at hp
  subst hp
  intro v hv
  simp only [List.mem_singleton] at hv
  exact ⟨opSumX, hv⟩

lemma filterRows_ok (f : FilterPred) (idx : Nat) :
    ∀ rows out, filterRows f idx rows = .ok out →
      out = rows.filter (cellPass f idx) := by
  intro rows
  induction rows with
  | nil => intro out h; cases h; rfl
  | cons r rest ih =>
    intro out h
    simp only [filterRows] at h
    cases hc : cmpCell f (r.getD idx Value.null) with
    | error e => rw [hc] at h; cases h
    | ok b =>
      rw [hc] at h
      cases ht : filterRows f idx rest with
      | error e => rw [ht] at h; cases h
      | ok tail =>
        rw [ht] at h
        cases h
        simp only [List.filter_cons, cellPass, hc]
        cases b with
        | true => simp [ih tail ht]
        | false => simp [ih tail ht]

lemma apply_filter_ok (df : DataFrame) (f : FilterPred) (d1 : DataFrame)
    (h : apply_filter df f = .ok d1) :
    d1.cols = df.cols ∧ d1.rows = df.rows.filter (rowPasses df.cols f) := by
  unfold apply_filter at h
  by_cases hcond : (df.cols.contains f.column && recognizedOp f.operator) = true
  · rw [if_pos hcond] at h
    cases hfr : filterRows f (df.colIdx f.column) df.rows with
    | error e => rw [hfr] at h; cases h
    | ok rows =>
      rw [hfr] at h
      cases h
      refine ⟨rfl, ?_⟩
      have := filterRows_ok f (df.colIdx f.column) df.rows rows hfr
      rw [this]
      apply List.filter_congr
      intro r _
      simp only [rowPasses, hcond, if_pos, DataFrame.colIdx]
  · rw [if_neg hcond] at h
    cases h
    refine ⟨rfl, ?_⟩
    have hall : df.rows.filter (rowPasses df.cols f) = df.rows := by
      apply List.filter_eq_self.mpr
      intro r _
      simp only [rowPasses]
      rw [if_neg hcond]
    rw [hall]

/-- C7: whenever filtering succeeds, the surviving rows are exactly the
rows satisfying every applicable predicate (applied conjunctively, with
the listed operators as the comparisons and `in` as membership in the
declared value list), the column set is unchanged, and a predicate naming
an unknown column restricts nothing. -/
theorem filters_are_conjunctive (df : DataFrame) (fs : List FilterPred) (res : DataFrame)
    (h : apply_filters df fs = .ok res) :
    res.cols = df.cols ∧
    res.rows = df.rows.filter (fun r => fs.all (fun f => rowPasses df.cols f r)) := by
  induction fs generalizing df with
  | nil =>
    cases h
    exact ⟨rfl, (List.filter_eq_self.mpr (fun r _ => rfl)).symm⟩
  | cons f fs ih =>
    simp only [apply_filters] at h
    cases h1 : apply_filter df f with
    | error e => rw [h1] at h; cases h
    | ok d1 =>
      rw [h1] at h
      obtain ⟨hc1, hr1⟩ := apply_filter_ok df f d1 h1
      obtain ⟨hc2, hr2⟩ := ih d1 h
      refine ⟨hc2.trans hc1, ?_⟩
      rw [hr2, hc1, hr1, List.filter_filter]
      apply List.filter_congr
      intro r _
      simp only [List.all_cons]
      rw [Bool.and_comm]

/-- C7 witness: the spec's filter scenario — amt > 75 on the sales table
keeps exactly the two rows with amt 100 and 200. -/
theorem filters_are_conjunctive_witness :
    (⟨["loc", "amt"], [[.str "NYC", .num 100], [.str "NYC", .num 200]]⟩ : DataFrame).cols =
        salesDF.cols ∧
    (⟨["loc", "amt"], [[.str "NYC", .num 100], [.str "NYC", .num 200]]⟩ : DataFrame).rows =
      salesDF.rows.filter (fun r =>
        ([⟨"amt", ">", .scalar (.num 75)⟩] : List FilterPred).all
          (fun f => rowPasses salesDF.cols f r)) :=
  filters_are_conjunctive salesDF [⟨"amt", ">", .scalar (.num 75)⟩] _ (by decide)

/-- C3 (amended): in the ungrouped path, for every aggregate entry whose
function is one of the five bare names sum, mean, count, max, min and
whose column is present in the resolved table, a successful simple
aggregation contains the scalar column named `{column}_{function}`;
entries giving a list of functions, or the names std and median, are not
recognized by _simple_aggregate and contribute no scalar, as the
counterexample shows. -/
theorem simple_aggregate_bare_scalars (df : DataFrame) (aggs : List (String × AggSpec))
    (col fn : String) (es : List (String × Value))
    (hok : simpleAggEntries df aggs = .ok es)
    (hmem : (col, AggSpec.single fn) ∈ aggs)
    (hcol : df.cols.contains col = true)
    (hfn : fn ∈ ["sum", "mean", "count", "max", "min"]) :
    (col ++ "_" ++ fn) ∈ es.map Prod.fst := by
  induction aggs generalizing es with
  | nil => cases hmem
  | cons p rest ih =>
    obtain ⟨c, sp⟩ := p
    rcases List.mem_cons.mp hmem with heq | hmem2
    · injection heq with h1 h2
      subst h1
      subst h2
      simp only [simpleAggEntries, hcol, if_true] at hok
      have hsome : ∃ ev, simpleAggValue fn (df.colValues col) = some ev := by
        simp only [List.mem_cons, List.mem_singleton, List.not_mem_nil, or_false] at hfn
        rcases hfn with rfl | rfl | rfl | rfl | rfl
        · exact ⟨_, rfl⟩
        · exact ⟨_, rfl⟩
        · exact ⟨_, rfl⟩
        · exact ⟨_, rfl⟩
        · exact ⟨_, rfl⟩
      obtain ⟨ev, hev⟩ := hsome
      rw [hev] at hok
      cases hv : ev with
      | error e => rw [hv] at hok; cases hok
      | ok v =>
        rw [hv] at hok
        cases ht : simpleAggEntries df rest with
        | error e => rw [ht] at hok; cases hok
        | ok tail =>
          rw [ht] at hok
          cases hok
          simp
    · simp only [simpleAggEntries] at hok
      by_cases hc : df.cols.contains c = true
      · rw [hc] at hok
        simp only [if_true] at hok
        cases sp with
        | listF fs => exact ih es hok hmem2
        | single f2 =>
          dsimp only at hok
          cases hsv : simpleAggValue f2 (df.colValues c) with
          | none => rw [hsv] at hok; exact ih es hok hmem2
          | some ev =>
            rw [hsv] at hok
            cases hv : ev with
            | error e => rw [hv] at hok; cases hok
            | ok v =>
              rw [hv] at hok
              cases ht : simpleAggEntries df rest with
              | error e => rw [ht] at hok; cases hok
              | ok tail =>
                rw [ht] at hok
                cases hok
                have := ih tail ht hmem2
                simp only [List.map_cons, List.mem_cons]
                exact Or.inr this
      · simp only [Bool.not_eq_true] at hc
        rw [hc] at hok
        simp only [Bool.false_eq_true, if_false] at hok
        exact ih es hok hmem2

/-- C3 witness: the amended theorem at the concrete table sales2 with the
single bare entry sum of amt (the scalar is 350). -/
theorem simple_aggregate_bare_scalars_witness :
    ("amt" ++ "_" ++ "sum") ∈
      ([("amt_sum", Value.num 350)] : List (String × Value)).map Prod.fst :=
  simple_aggregate_bare_scalars sales2DF [("amt", .single "sum")] "amt" "sum"
    [("amt_sum", Value.num 350)] (by decide) (by decide) (by decide) (by decide)

lemma insertLe_length {α : Type} (le : α → α → Bool) (a : α) (l : List α) :
    (insertLe le a l).length = l.length + 1 := by
  induction l with
  | nil => rfl
  | cons b t ih =>
    simp only [insertLe]
    by_cases hle : le a b = true
    · rw [if_pos hle]; rfl
    · rw [if_neg hle]; simp [ih]

lemma sortByLe_length {α : Type} (le : α → α → Bool) (l : List α) :
    (sortByLe le l).length = l.length := by
  induction l with
  | nil => rfl
  | cons a t ih => simp only [sortByLe, insertLe_length, ih, List.length_cons]

/-- C10: when at least one grouping column is present but every aggregate
column is absent, the grouped aggregation succeeds with exactly one row
per distinct group key, carrying the valid group-key columns plus a single
added column named count holding each group's row count. -/
theorem grouped_count_fallback (df : DataFrame) (group_by : List String)
    (aggs : List (String × AggSpec))
    (hvalid : group_by.filter (fun c => df.cols.contains c) ≠ [])
    (haggs : ∀ p ∈ aggs, df.cols.contains p.1 = false) :
    group_and_aggregate df group_by aggs =
      .ok ⟨(group_by.filter (fun c => df.cols.contains c)) ++ ["count"],
        (groupKeys df (group_by.filter (fun c => df.cols.contains c))).map (fun k =>
          k ++ [.num ((groupOf df (group_by.filter (fun c => df.cols.contains c)) k).length : ℚ)])⟩ ∧
    (groupKeys df (group_by.filter (fun c => df.cols.contains c))).length =
      ((keyedRows df (group_by.filter (fun c => df.cols.contains c))).map
        (keyOf (keyIdxs df (group_by.filter (fun c => df.cols.contains c))))).dedup.length := by
  constructor
  · have h1 : (group_by.filter (fun c => df.cols.contains c)).isEmpty = false := by
      cases hv : group_by.filter (fun c => df.cols.contains c) with
      | nil => exact absurd hv hvalid
      | cons a l => rfl
    have h2 : aggs.filterMap (fun p =>
        if df.cols.contains p.1 then some (p.1, AggSpec.toFns p.2) else none) = [] := by
      refine List.filterMap_eq_nil_iff.mpr ?_
      intro p hp
      rw [haggs p hp]
      simp
    simp only [group_and_aggregate, h1, h2, Bool.false_eq_true, if_false, List.isEmpty_nil,
      if_true, List.isEmpty_cons]
  · simp only [groupKeys, sortByLe_length]

/-- C10 witness: grouping sales by loc with an aggregate map that names
only the absent column zzz yields the two group rows with their counts. -/
theorem grouped_count_fallback_witness :
    group_and_aggregate salesDF ["loc"] [("zzz", AggSpec.single "sum")] =
      .ok ⟨["loc", "count"], [[.str "LA", .num 1], [.str "NYC", .num 2]]⟩ :=
  ((grouped_count_fallback salesDF ["loc"] [("zzz", .single "sum")]
    (by decide) (by decide)).1).trans (by decide)

lemma resolveTable_empty (req : Option String) :
    resolveTable [] req = .error "No valid table found" := by
  cases req with
  | none => rfl
  | some t => simp [resolveTable, exactMatch, List.lookup]

/-- C4 (amended): table resolution is deterministic — an Operation whose
table field names a nonempty-string registry key exactly resolves to that
key; otherwise the first table in registration order is used, provided its
name is not the empty string; and on an empty registry the Operation fails
with a resolution error (an error entry for that Operation alone).
Empty-string table names fall outside the claim as stated: Python
truthiness diverts an empty-string exact match to the fallback, and the
final guard of line 136 rejects an empty-string fallback name, as the
counterexample shows. -/
theorem table_resolution_deterministic (dfs : Registry) (req : Option String) (a : Operation) :
    (∀ t, req = some t → t ≠ "" → (dfs.lookup t).isSome = true →
      resolveTable dfs req = .ok t) ∧
    (∀ t0 d0 rest, dfs = (t0, d0) :: rest → t0 ≠ "" → exactMatch dfs req = false →
      resolveTable dfs req = .ok t0) ∧
    (dfs = [] →
      resolveTable dfs req = .error "No valid table found" ∧
      execute_single_aggregation dfs (.op a) = .err "No valid table found") := by
  refine ⟨?_, ?_, ?_⟩
  · intro t hreq hne hlk
    subst hreq
    have hbne : (t != "") = true := bne_iff_ne.mpr hne
    simp [resolveTable, exactMatch, hbne, hlk]
  · intro t0 d0 rest hdfs hne hEx
    subst hdfs
    have hbne : (t0 != "") = true := bne_iff_ne.mpr hne
    simp only [resolveTable, hEx, Bool.false_eq_true, if_false, List.head?,
      Option.map_some]
    simp [List.lookup, hbne]
  · intro hdfs
    subst hdfs
    refine ⟨resolveTable_empty req, ?_⟩
    have h3 := resolveTable_empty a.table
    simp only [execute_single_aggregation, single_aggregation_body, h3, Except.bind]
    rfl

/-- C4 witness: each branch of the amended resolution theorem at a
concrete input — exact nonempty match, fallback to the first table for an
unknown reference, and the empty-registry resolution error. -/
theorem table_resolution_deterministic_witness :
    resolveTable salesReg (some "sales") = .ok "sales" ∧
    resolveTable regAB (some "zzz") = .ok "a" ∧
    resolveTable [] none = .error "No valid table found" :=
  ⟨(table_resolution_deterministic salesReg (some "sales") {}).1 "sales" rfl
      (by decide) (by decide),
   (table_resolution_deterministic regAB (some "zzz") {}).2.1 "a" dfA [("b", dfB)] rfl
      (by decide) (by decide),
   ((table_resolution_deterministic [] none {}).2.2 rfl).1⟩

lemma qdiv_eq (a b : ℚ) : qdiv a b = a / b := by
  rw [Rat.div_def']
  unfold qdiv
  by_cases h : 0 ≤ b.num
  · rw [if_pos h, Rat.mkRat_eq_divInt]
    congr 1
    push_cast [Int.natAbs_of_nonneg h]
    ring
  · rw [if_neg h, Rat.mkRat_eq_divInt]
    push_neg at h
    have hne : ((a.den * b.num.natAbs : ℕ) : ℤ) = -((a.den : ℤ) * b.num) := by
      push_cast [Int.ofNat_natAbs_of_nonpos (le_of_lt h)]
      ring
    rw [hne]
    exact Rat.neg_divInt_neg _ _

lemma dedup_nonNull_le_length (vs : List Value) :
    (nonNull vs).dedup.length ≤ vs.length :=
  ((List.dedup_sublist (nonNull vs)).trans (List.filter_sublist vs)).length_le

lemma columnMeta_ratio (name : String) (vs : List Value) :
    ColumnMeta.distinct_value_ratio (columnMeta name vs) =
      if 0 < vs.length then qdiv ((nonNull vs).dedup.length : ℚ) (vs.length : ℚ) else 0 := rfl

lemma colValues_length (df : DataFrame) (c : String) :
    (df.colValues c).length = df.rows.length := List.length_map _ _

lemma pk_characterization (df : DataFrame) :
    find_primary_key_candidates df =
      (get_column_metadata df).filterMap (fun m2 =>
        if ColumnMeta.unique_count m2 = df.rows.length ∧ ColumnMeta.nullable m2 = false
        then some (ColumnMeta.column_name m2) else none) := by
  unfold find_primary_key_candidates get_column_metadata
  have key : ∀ (cs : List String),
      (cs.filter (fun c =>
        is_uniqueCol (df.colValues c) && !(df.colValues c).any Value.isNull)) =
      ((cs.map (fun c => columnMeta c (df.colValues c))).filterMap (fun m2 =>
        if ColumnMeta.unique_count m2 = df.rows.length ∧ ColumnMeta.nullable m2 = false
        then some (ColumnMeta.column_name m2) else none)) := by
    intro cs
    induction cs with
    | nil => rfl
    | cons c rest ih =>
      simp only [List.filter_cons, List.map_cons, List.filterMap_cons]
      have hcell :
          (if ColumnMeta.unique_count (columnMeta c (df.colValues c)) = df.rows.length ∧
              ColumnMeta.nullable (columnMeta c (df.colValues c)) = false
           then some (ColumnMeta.column_name (columnMeta c (df.colValues c))) else none) =
          (if (is_uniqueCol (df.colValues c) && !(df.colValues c).any Value.isNull) = true
           then some c else none) := by
        show (if (nonNull (df.colValues c)).dedup.length = df.rows.length ∧
                ((df.colValues c).any Value.isNull) = false
              then some c else none) = _
        by_cases hnull : (df.colValues c).any Value.isNull = true
        · rw [hnull]
          simp [is_uniqueCol]
        · simp only [Bool.not_eq_true] at hnull
          have hnn : nonNull (df.colValues c) = df.colValues c := by
            apply List.filter_eq_self.mpr
            intro v hv
            have := List.any_eq_false.mp hnull v hv
            simp [this]
          rw [hnn, hnull, ← colValues_length df c]
          by_cases huniq : (df.colValues c).dedup.length = (df.colValues c).length
          · simp [is_uniqueCol, huniq]
          · simp [is_uniqueCol, huniq]
      rw [hcell]
      by_cases hcond :
          (is_uniqueCol (df.colValues c) && !(df.colValues c).any Value.isNull) = true
      · rw [if_pos hcond, if_pos hcond, ih]
      · rw [if_neg hcond, if_neg hcond, ih]
  exact key df.cols

/-- C8: every column's distinct_value_ratio lies in [0, 1] (and is 0 for
an empty Relation), and the primary-key candidates are exactly the columns
whose unique_count equals the row count and whose nullable flag is
false. -/
theorem metadata_profile_invariants (df : DataFrame) (m : ColumnMeta)
    (hm : m ∈ get_column_metadata df) :
    (0 ≤ ColumnMeta.distinct_value_ratio m ∧ ColumnMeta.distinct_value_ratio m ≤ 1) ∧
    (df.rows = [] → ColumnMeta.distinct_value_ratio m = 0) ∧
    find_primary_key_candidates df =
      (get_column_metadata df).filterMap (fun m2 =>
        if ColumnMeta.unique_count m2 = df.rows.length ∧ ColumnMeta.nullable m2 = false
        then some (ColumnMeta.column_name m2) else none) := by
  obtain ⟨c, hc, rfl⟩ := List.mem_map.mp hm
  refine ⟨?_, ?_, pk_characterization df⟩
  · rw [columnMeta_ratio]
    by_cases hlen : 0 < (df.colValues c).length
    · rw [if_pos hlen, qdiv_eq]
      constructor
      · exact div_nonneg (Nat.cast_nonneg _) (Nat.cast_nonneg _)
      · rw [div_le_one (by exact_mod_cast hlen)]
        exact_mod_cast dedup_nonNull_le_length (df.colValues c)
    · rw [if_neg hlen]
      exact ⟨le_refl 0, zero_le_one⟩
  · intro hrows
    rw [columnMeta_ratio]
    have : (df.colValues c).length = 0 := by rw [colValues_length, hrows]; rfl
    rw [this]
    simp

/-- C8 witness: the invariants at the concrete one-column table dfA (two
distinct non-null numeric cells, so the column is a key candidate and the
ratio is 1). -/
theorem metadata_profile_invariants_witness :
    (0 ≤ ColumnMeta.distinct_value_ratio (columnMeta "x" (dfA.colValues "x")) ∧
      ColumnMeta.distinct_value_ratio (columnMeta "x" (dfA.colValues "x")) ≤ 1) ∧
    (dfA.rows = [] →
      ColumnMeta.distinct_value_ratio (columnMeta "x" (dfA.colValues "x")) = 0) ∧
    find_primary_key_candidates dfA =
      (get_column_metadata dfA).filterMap (fun m2 =>
        if ColumnMeta.unique_count m2 = dfA.rows.length ∧ ColumnMeta.nullable m2 = false
        then some (ColumnMeta.column_name m2) else none) :=
  metadata_profile_invariants dfA (columnMeta "x" (dfA.colValues "x")) (by decide)
